import Mathlib

/-!
Verification development for the countryblocker repository
(`bin/ipdeny-fetcher.py` and `bin/ipdeny-firewall-update.py`).

The Python code drives two external kernel subsystems through
command-line calls: the `ipset` named-set store and the
`iptables`/`ip6tables` rule store.  We embed the code shallowly:

* string-scanning primitives of Python (`strip`, `startswith`,
  `x in y`, `split()`, `isdigit`, `int(...)`) are modelled as
  executable functions over `List Char`;
* the ipset subsystem is a state (an association list of named sets),
  and each `run_command` invocation is one step of an interpreter that
  also records a trace of the intermediate states (the instants an
  external observer can probe) and of the issued commands;
* the iptables rule list of one table is a `List String` of rendered
  rule lines; listing renders 1-based line numbers the way
  `iptables -L -n --line-numbers` does, and the code's parsing of that
  output is modelled character by character;
* `download_zone`'s retry loop is a pure function of the sequence of
  attempt outcomes, recording the sleeps it performs.

Commands that can fail for external reasons (`ipset create/rename/swap`,
`iptables -A`, `iptables -D`) consume a success oracle; commands whose
failure conditions are purely semantic (`destroy` fails exactly when the
set is in use, `flush`/`list` fail exactly when the set is absent) follow
those semantics directly, and `ipset add` is governed by a validity
predicate on the added range.
-/

namespace CountryBlocker

/-! ### Python string primitives -/

/-- Whitespace characters recognised by Python's `str.strip()` / `str.split()`. -/
def isWsC (c : Char) : Bool :=
  c = ' ' || c = '\t' || c = '\n' || c = '\r' || c = Char.ofNat 11 || c = Char.ofNat 12

/-- `str.strip()` on the character list. -/
def pyStripL (cs : List Char) : List Char :=
  ((cs.dropWhile isWsC).reverse.dropWhile isWsC).reverse

/-- Python `str.strip()`. -/
def pyStrip (s : String) : String := ⟨pyStripL s.data⟩

/-- Python truthiness of a string (`if ip:`): nonempty. -/
def pyTruthy (s : String) : Bool := !s.data.isEmpty

/-- Python `ip.startswith('#')`. -/
def startsHash (s : String) : Bool :=
  match s.data with
  | [] => false
  | c :: _ => c = '#'

/-- Does `nd` occur as a leading segment of `hay`? -/
def leadEq : List Char → List Char → Bool
  | [], _ => true
  | _ :: _, [] => false
  | a :: as, b :: bs => a = b && leadEq as bs

/-- Does `nd` occur as a contiguous segment anywhere in `hay`?
(Python's `nd in hay` for strings.) -/
def subAt : List Char → List Char → Bool
  | [], nd => nd.isEmpty
  | c :: t, nd => leadEq nd (c :: t) || subAt t nd

/-- Python substring containment `nd in hay`. -/
def strContainsSub (hay nd : String) : Bool := subAt hay.data nd.data

/-- Python `s.startswith(t)`. -/
def pyStartsWith (s t : String) : Bool := leadEq t.data s.data

theorem leadEq_iff (nd hay : List Char) :
    leadEq nd hay = true ↔ ∃ r, hay = nd ++ r := by
  induction nd generalizing hay with
  | nil => simp [leadEq]
  | cons a as ih =>
    cases hay with
    | nil => simp [leadEq]
    | cons b bs =>
      simp only [leadEq, Bool.and_eq_true, decide_eq_true_eq, ih]
      constructor
      · rintro ⟨rfl, r, rfl⟩; exact ⟨r, rfl⟩
      · rintro ⟨r, h⟩
        injection h with h1 h2
        exact ⟨h1.symm, r, h2⟩

theorem subAt_iff (hay nd : List Char) :
    subAt hay nd = true ↔ ∃ l r, hay = l ++ nd ++ r := by
  induction hay with
  | nil =>
    simp only [subAt, List.isEmpty_iff]
    constructor
    · rintro rfl; exact ⟨[], [], rfl⟩
    · rintro ⟨l, r, h⟩
      rcases List.append_eq_nil.mp h.symm with ⟨h1, h2⟩
      exact (List.append_eq_nil.mp h1).2
  | cons c t ih =>
    simp only [subAt, Bool.or_eq_true, leadEq_iff, ih]
    constructor
    · rintro (⟨r, h⟩ | ⟨l, r, rfl⟩)
      · exact ⟨[], r, by simpa using h⟩
      · exact ⟨c :: l, r, rfl⟩
    · rintro ⟨l, r, h⟩
      cases l with
      | nil => exact Or.inl ⟨r, by simpa using h⟩
      | cons x xs =>
        injection h with h1 h2
        exact Or.inr ⟨xs, r, h2⟩

/-- `strContainsSub` decides exactly "occurs contiguously somewhere". -/
theorem strContainsSub_iff (hay nd : String) :
    strContainsSub hay nd = true ↔ ∃ l r, hay.data = l ++ nd.data ++ r :=
  subAt_iff hay.data nd.data

/-! ### Decimal rendering and parsing of rule positions

`iptables -L --line-numbers` renders 1-based positions in decimal; the
code recovers them with `parts[0].isdigit()` and `int(parts[0])`.  We
model the rendering (`natRepr`) and the parsing (`pyToNatL`) and prove
the round trip. -/

/-- One decimal digit as a character (defined for `d < 10`). -/
def digCh (d : Nat) : Char :=
  match d with
  | 0 => '0' | 1 => '1' | 2 => '2' | 3 => '3' | 4 => '4'
  | 5 => '5' | 6 => '6' | 7 => '7' | 8 => '8' | _ => '9'

/-- Little-endian decimal digits of `n`, with explicit fuel (structural). -/
def natDigitsRev : Nat → Nat → List Nat
  | 0, _ => []
  | _ + 1, 0 => []
  | fuel + 1, n + 1 => ((n + 1) % 10) :: natDigitsRev fuel ((n + 1) / 10)

/-- Decimal rendering of a natural number. -/
def natRepr (n : Nat) : String :=
  if n = 0 then "0" else ⟨((natDigitsRev n n).reverse.map digCh)⟩

/-- Python `c.isdigit()` for one character. -/
def isDigitC (c : Char) : Bool := 48 ≤ c.toNat && c.toNat ≤ 57

/-- Value of a little-endian digit list. -/
def valLE : List Nat → Nat
  | [] => 0
  | d :: t => d + 10 * valLE t

/-- Python `int(s)` on a digit string (big-endian fold). -/
def pyToNatL (cs : List Char) : Nat :=
  cs.foldl (fun a c => 10 * a + (c.toNat - 48)) 0

theorem digCh_toNat {d : Nat} (h : d < 10) : (digCh d).toNat = 48 + d := by
  interval_cases d <;> rfl

theorem digCh_isDigit {d : Nat} (h : d < 10) : isDigitC (digCh d) = true := by
  interval_cases d <;> rfl

theorem digCh_not_ws {d : Nat} (h : d < 10) : isWsC (digCh d) = false := by
  interval_cases d <;> rfl

theorem natDigitsRev_lt (fuel n : Nat) : ∀ d ∈ natDigitsRev fuel n, d < 10 := by
  induction fuel generalizing n with
  | zero => simp [natDigitsRev]
  | succ fuel ih =>
    cases n with
    | zero => simp [natDigitsRev]
    | succ m =>
      intro d hd
      simp only [natDigitsRev, List.mem_cons] at hd
      rcases hd with rfl | hd
      · exact Nat.mod_lt _ (by omega)
      · exact ih _ _ hd

theorem valLE_natDigitsRev {fuel n : Nat} (h : n ≤ fuel) :
    valLE (natDigitsRev fuel n) = n := by
  induction fuel generalizing n with
  | zero => interval_cases n; simp [natDigitsRev, valLE]
  | succ fuel ih =>
    cases n with
    | zero => simp [natDigitsRev, valLE]
    | succ m =>
      have hdiv : (m + 1) / 10 ≤ fuel := by
        have : (m + 1) / 10 < m + 1 := Nat.div_lt_self (by omega) (by omega)
        omega
      simp only [natDigitsRev, valLE, ih hdiv]
      omega

theorem natDigitsRev_ne_nil {fuel n : Nat} (hn : 0 < n) (h : n ≤ fuel) :
    natDigitsRev fuel n ≠ [] := by
  cases fuel with
  | zero => omega
  | succ f =>
    cases n with
    | zero => omega
    | succ m => simp [natDigitsRev]

/-- Parsing the big-endian rendering recovers the little-endian value. -/
theorem pyToNatL_digits (L : List Nat) (hL : ∀ d ∈ L, d < 10) :
    pyToNatL (L.reverse.map digCh) = valLE L := by
  induction L with
  | nil => rfl
  | cons d t ih =>
    have hd : d < 10 := hL d (by simp)
    have ht : ∀ x ∈ t, x < 10 := fun x hx => hL x (by simp [hx])
    simp only [valLE, List.reverse_cons, List.map_append, List.map_cons, List.map_nil]
    simp only [pyToNatL, List.foldl_append, List.foldl_cons, List.foldl_nil]
    have : (t.reverse.map digCh).foldl (fun a c => 10 * a + (c.toNat - 48)) 0 = valLE t := ih ht
    rw [this, digCh_toNat hd]
    omega

theorem pyToNatL_natRepr (n : Nat) : pyToNatL (natRepr n).data = n := by
  by_cases h : n = 0
  · subst h; rfl
  · simp only [natRepr, if_neg h]
    rw [pyToNatL_digits _ (natDigitsRev_lt n n)]
    exact valLE_natDigitsRev (Nat.le_refl n)

theorem natRepr_all_digit (n : Nat) : ∀ c ∈ (natRepr n).data, isDigitC c = true := by
  by_cases h : n = 0
  · subst h; intro c hc
    have h0 : (natRepr 0).data = ['0'] := rfl
    rw [h0, List.mem_singleton] at hc
    subst hc; rfl
  · intro c hc
    simp only [natRepr, if_neg h] at hc
    rcases List.mem_map.mp hc with ⟨d, hd, rfl⟩
    exact digCh_isDigit (natDigitsRev_lt n n d (List.mem_reverse.mp hd))

theorem natRepr_no_ws (n : Nat) : ∀ c ∈ (natRepr n).data, isWsC c = false := by
  by_cases h : n = 0
  · subst h; intro c hc
    have h0 : (natRepr 0).data = ['0'] := rfl
    rw [h0, List.mem_singleton] at hc
    subst hc; rfl
  · intro c hc
    simp only [natRepr, if_neg h] at hc
    rcases List.mem_map.mp hc with ⟨d, hd, rfl⟩
    exact digCh_not_ws (natDigitsRev_lt n n d (List.mem_reverse.mp hd))

theorem natRepr_pos_ne_nil {n : Nat} (hn : 0 < n) : (natRepr n).data ≠ [] := by
  simp only [natRepr, if_neg (Nat.pos_iff_ne_zero.mp hn)]
  intro h
  have := natDigitsRev_ne_nil hn (Nat.le_refl n)
  have h' : (natDigitsRev n n).reverse.map digCh = [] := h
  simp only [List.map_eq_nil_iff, List.reverse_eq_nil_iff] at h'
  exact this h'

/-! ### Python `str.split()` -/

/-- Accumulator-based `str.split()` (splits on whitespace runs,
drops empty tokens). `cur` holds the current token reversed. -/
def splitAux : List Char → List Char → List (List Char)
  | [], cur => if cur.isEmpty then [] else [cur.reverse]
  | c :: t, cur =>
    if isWsC c then (if cur.isEmpty then splitAux t [] else cur.reverse :: splitAux t [])
    else splitAux t (c :: cur)

/-- Python `s.split()` with no argument. -/
def pySplitWsL (cs : List Char) : List (List Char) := splitAux cs []

theorem splitAux_token (T : List Char) (hT : ∀ c ∈ T, isWsC c = false) :
    ∀ (acc rest : List Char), (acc ≠ [] ∨ T ≠ []) →
      splitAux (T ++ ' ' :: rest) acc = (acc.reverse ++ T) :: splitAux rest [] := by
  induction T with
  | nil =>
    intro acc rest h
    have hacc : acc ≠ [] := by tauto
    simp [splitAux, isWsC, List.isEmpty_iff, hacc]
  | cons c T' ih =>
    intro acc rest _
    have hc : isWsC c = false := hT c (by simp)
    have hT' : ∀ x ∈ T', isWsC x = false := fun x hx => hT x (by simp [hx])
    simp only [List.cons_append, splitAux, hc, Bool.false_eq_true, if_false, List.append_eq]
    rw [ih hT' (c :: acc) rest (Or.inl (by simp))]
    simp

/-! ### The ipset subsystem state

A named set has a family, a membership list and a flag recording whether
a kernel object (an iptables rule) currently references it.  `destroy`
fails exactly on a referenced set (this is the "in use by a kernel
component" error the code matches on); `flush` and `list` fail exactly
on an absent set; `create`, `rename` and `swap` additionally consult an
external success oracle; `add` is governed by a validity predicate. -/

structure IpSetEntry where
  family : String
  members : List String
  inUse : Bool
deriving DecidableEq

abbrev IpState := List (String × IpSetEntry)

def lookupSet : IpState → String → Option IpSetEntry
  | [], _ => none
  | (m, e) :: t, n => if m = n then some e else lookupSet t n

def setSet : IpState → String → IpSetEntry → IpState
  | [], n, e => [(n, e)]
  | (m, e0) :: t, n, e => if m = n then (n, e) :: t else (m, e0) :: setSet t n e

def removeSet (s : IpState) (n : String) : IpState :=
  s.filter (fun p => p.1 ≠ n)

inductive Cmd
  | listName (n : String)
  | create (n fam hashsize maxelem : String)
  | flush (n : String)
  | add (n ip : String)
  | destroy (n : String)
  | rename (a b : String)
  | swap (a b : String)
deriving DecidableEq

structure CmdOut where
  rc : Nat
  out : String
  err : String
deriving DecidableEq

/-- External environment: success oracle for the fallible commands
(`create`/`rename`/`swap`), and validity of ranges passed to `add`. -/
structure Env where
  oracle : Nat → Bool
  valid : String → Bool

/-- Interpreter state: the kernel sets, the oracle position, the trace of
set states after each issued command (the instants an external observer
can probe), the issued commands, and the destroy-classification log. -/
inductive LogLevel
  | debug
  | warning
deriving DecidableEq

structure St where
  sets : IpState
  step : Nat
  trace : List IpState
  cmds : List Cmd
  logs : List LogLevel
deriving Inhabited

/-- The substring the code matches on (ipdeny-fetcher.py line 178). -/
def busyKey : String := "in use by a kernel component"

/-- The stderr the kernel subsystem produces for a busy destroy. -/
def busyErr : String := "ipset v7.15: Set cannot be destroyed: it is in use by a kernel component"

/-- Semantics of one ipset command. -/
def applyCmd (env : Env) (step : Nat) (sets : IpState) : Cmd → CmdOut × IpState
  | .listName n =>
    (if (lookupSet sets n).isSome then ⟨0, "", ""⟩ else ⟨1, "", "The set with the given name does not exist"⟩, sets)
  | .create n fam _ _ =>
    match lookupSet sets n with
    | some _ => (⟨1, "", "Set cannot be created: set with the same name already exists"⟩, sets)
    | none =>
      if env.oracle step then (⟨0, "", ""⟩, setSet sets n ⟨fam, [], false⟩)
      else (⟨1, "", "Kernel error received: set cannot be created"⟩, sets)
  | .flush n =>
    match lookupSet sets n with
    | some e => (⟨0, "", ""⟩, setSet sets n ⟨e.family, [], e.inUse⟩)
    | none => (⟨1, "", "The set with the given name does not exist"⟩, sets)
  | .add n ip =>
    match lookupSet sets n with
    | some e =>
      if env.valid ip then
        (⟨0, "", ""⟩, setSet sets n ⟨e.family, if ip ∈ e.members then e.members else e.members ++ [ip], e.inUse⟩)
      else (⟨1, "", "Syntax error: cannot parse " ++ ip⟩, sets)
    | none => (⟨1, "", "The set with the given name does not exist"⟩, sets)
  | .destroy n =>
    match lookupSet sets n with
    | some e =>
      if e.inUse then (⟨1, "", busyErr⟩, sets)
      else (⟨0, "", ""⟩, removeSet sets n)
    | none => (⟨1, "", "The set with the given name does not exist"⟩, sets)
  | .rename a b =>
    match lookupSet sets a with
    | some e =>
      match lookupSet sets b with
      | some _ => (⟨1, "", "Set cannot be renamed: a set with the new name already exists"⟩, sets)
      | none =>
        if env.oracle step then (⟨0, "", ""⟩, setSet (removeSet sets a) b e)
        else (⟨1, "", "Kernel error received: set cannot be renamed"⟩, sets)
    | none => (⟨1, "", "The set with the given name does not exist"⟩, sets)
  | .swap a b =>
    match lookupSet sets a, lookupSet sets b with
    | some ea, some eb =>
      if ea.family = eb.family && env.oracle step then
        (⟨0, "", ""⟩,
          setSet (setSet sets a ⟨eb.family, eb.members, ea.inUse⟩) b ⟨ea.family, ea.members, eb.inUse⟩)
      else (⟨1, "", "The sets cannot be swapped: their type does not match"⟩, sets)
    | _, _ => (⟨1, "", "The set with the given name does not exist"⟩, sets)

def usesOracle : Cmd → Bool
  | .create _ _ _ _ => true
  | .rename _ _ => true
  | .swap _ _ => true
  | _ => false

/-- One `run_command(['ipset', ...])` invocation: execute the command,
advance the oracle position when the command is fallible, and record the
resulting set state in the observation trace. -/
def execCmd (env : Env) (st : St) (c : Cmd) : CmdOut × St :=
  let r := applyCmd env st.step st.sets c
  (r.1, ⟨r.2, st.step + (if usesOracle c then 1 else 0), st.trace ++ [r.2], st.cmds ++ [c], st.logs⟩)

/-! ### The fetcher's ipset helpers (ipdeny-fetcher.py lines 100-185) -/

/-- `ipset_exists` (lines 100-103): `ipset list name`, true iff exit 0. -/
def ipset_exists (env : Env) (st : St) (n : String) : Bool × St :=
  let r := execCmd env st (.listName n)
  (r.1.rc == 0, r.2)

/-- `create_ipset` (lines 105-128): no-op success when the set already
exists, else `ipset create` with the configured (default) sizing. -/
def create_ipset (env : Env) (st : St) (n fam : String) : Bool × St :=
  let e := ipset_exists env st n
  if e.1 then (true, e.2)
  else
    let r := execCmd env e.2 (.create n fam "4096" "65536")
    if r.1.rc ≠ 0 then (false, r.2) else (true, r.2)

/-- `flush_ipset` (lines 130-143): no-op success when absent, else
`ipset flush`. The `force` flag only changes logging. -/
def flush_ipset (env : Env) (st : St) (n : String) (force : Bool) : Bool × St :=
  let e := ipset_exists env st n
  if !e.1 then (true, e.2)
  else
    let r := execCmd env e.2 (.flush n)
    if r.1.rc ≠ 0 then (false, r.2) else (true, r.2)

/-- Classification of a failed `ipset destroy` (lines 175-182): the
"in use by a kernel component" substring is downgraded to a debug log,
anything else is logged as a warning; the returned Boolean is `false`
in both cases. -/
def destroy_classify (rc : Nat) (stderr : String) : Bool × Option LogLevel :=
  if rc ≠ 0 then
    (false, some (if strContainsSub stderr busyKey then LogLevel.debug else LogLevel.warning))
  else (true, none)

/-- `destroy_ipset` (lines 166-185). -/
def destroy_ipset (env : Env) (st : St) (n : String) (flushFirst : Bool) : Bool × St :=
  let e := ipset_exists env st n
  if !e.1 then (true, e.2)
  else
    let s1 := if flushFirst then (flush_ipset env e.2 n false).2 else e.2
    let r := execCmd env s1 (.destroy n)
    let cl := destroy_classify r.1.rc r.1.err
    match cl.2 with
    | some lv => (cl.1, { r.2 with logs := r.2.logs ++ [lv] })
    | none => (cl.1, r.2)

/-! ### `populate_ipset_from_file` (ipdeny-fetcher.py lines 187-247) -/

/-- The zone file handed to `populate_ipset_from_file`: the lines the
`for line in f` loop yields, and whether reading raised an exception
after those lines (the `except` at line 208). -/
structure ZoneFile where
  lines : List String
  readError : Bool

/-- The staging loop (lines 200-207): strip each line, skip blanks and
`#` comments, `ipset add temp ip -exist` for the rest (per-entry
failures are logged only). -/
def stage_lines (env : Env) (st : St) (temp : String) : List String → St
  | [] => st
  | l :: ls =>
    let ip := pyStrip l
    if pyTruthy ip && !startsHash ip then
      stage_lines env (execCmd env st (.add temp ip)).2 temp ls
    else
      stage_lines env st temp ls

/-- The family derivation at line 192:
`'inet6' if '-v6' in ipset_name else 'inet'`. -/
def familyOf (name : String) : String :=
  if strContainsSub name "-v6" then "inet6" else "inet"

/-- Lines 220-247 of `populate_ipset_from_file`: rename the staged temp
set to the final name; on failure, swap with the (possibly re-created)
final set and destroy the temp set. -/
def populate_rename_phase (env : Env) (st : St) (temp name family : String) : Bool × St :=
  let r5 := execCmd env st (.rename temp name)
  if r5.1.rc ≠ 0 then
    let e6 := ipset_exists env r5.2 name
    if e6.1 then
      let w7 := execCmd env e6.2 (.swap temp name)
      if w7.1.rc ≠ 0 then (false, (destroy_ipset env w7.2 temp true).2)
      else (true, (destroy_ipset env w7.2 temp true).2)
    else
      let c8 := create_ipset env e6.2 name family
      if !c8.1 then (false, (destroy_ipset env c8.2 temp true).2)
      else
        let w9 := execCmd env c8.2 (.swap temp name)
        (true, (destroy_ipset env w9.2 temp true).2)
  else (true, r5.2)

/-- The replacement phase of `populate_ipset_from_file` (lines 213-247):
flush and attempt to destroy an existing final set, then hand over to
the rename/swap phase. -/
def populate_replace (env : Env) (st : St) (temp name family : String) : Bool × St :=
  let e3 := ipset_exists env st name
  let s4 :=
    if e3.1 then
      (destroy_ipset env (flush_ipset env e3.2 name false).2 name false).2
    else e3.2
  populate_rename_phase env s4 temp name family

/-- `populate_ipset_from_file` (lines 187-247), returning the Boolean
result together with the final interpreter state. -/
def populate_ipset_from_file (env : Env) (st : St) (name : String) (file : ZoneFile) :
    Bool × St :=
  let temp := name ++ "-tmp"
  let family := familyOf name
  let c1 := create_ipset env st temp family
  if !c1.1 then (false, c1.2)
  else
    let s2 := stage_lines env c1.2 temp file.lines
    if file.readError then
      (false, (destroy_ipset env s2 temp true).2)
    else
      populate_replace env s2 temp name family

/-- `get_ipdeny_ipsets` of the firewall updater (lines 88-103) and the
set filter of `flush_all_ipdeny_ipsets` (fetcher lines 156-161): keep the
listed names that start with `pfx + "-"`. -/
def get_ipdeny_ipsets (pfx : String) (names : List String) : List String :=
  names.filter (fun s => pyStartsWith s (pfx ++ "-"))

/-! ### `download_zone` (ipdeny-fetcher.py lines 249-301)

Pure model of the retry loop: the network is a function from the attempt
number to that attempt's outcome.  The loop body distinguishes HTTP
errors (retryable only for 502/503/504), URL errors and other
exceptions; after a failure the `for` loop always proceeds to the next
attempt — the only difference is whether a backoff sleep happens first. -/

inductive FetchOutcome
  | success (data : String)
  | httpError (code : Nat)
  | urlError
  | otherError

/-- Outcomes after which the code sleeps before the next attempt (an
HTTP 502/503/504, a URL error, or any other exception; success never). -/
def retryFail : FetchOutcome → Bool
  | .success _ => false
  | .httpError c => c == 503 || c == 502 || c == 504
  | .urlError => true
  | .otherError => true

structure DlResult where
  result : Option String
  sleeps : List (Nat × Nat)
  attempts : Nat
deriving DecidableEq

/-- The `for attempt in range(1, max_retries + 1)` loop, fuelled so the
recursion is structural.  `sleeps` accumulates `(failed attempt, delay)`
pairs in reverse; on a success at attempt `a` the zone file path is
returned; when the fuel (the remaining attempts) runs out the function
returns `None` having performed `maxR` attempts. -/
def dlGo (delay maxR : Nat) (out : Nat → FetchOutcome) (zfile : String) :
    Nat → Nat → List (Nat × Nat) → DlResult
  | 0, _, sl => ⟨none, sl.reverse, maxR⟩
  | fuel + 1, a, sl =>
    match out a with
    | .success _ => ⟨some zfile, sl.reverse, a⟩
    | o =>
      dlGo delay maxR out zfile fuel (a + 1)
        (if retryFail o && decide (a < maxR) then (a, delay * a) :: sl else sl)

/-- `download_zone` with `HTTP_RETRY_DELAY = delay`, `HTTP_RETRIES = maxR`,
network behaviour `out`, and destination path `zfile`. -/
def download_zone (delay maxR : Nat) (out : Nat → FetchOutcome) (zfile : String) : DlResult :=
  dlGo delay maxR out zfile maxR 1 []

/-! ### The iptables rule store (ipdeny-firewall-update.py)

One table (`iptables` or `ip6tables`) is the ordered list of its rule
lines as `iptables -L <chain> -n` renders them (without the leading
line number, which the listing adds).  Appending (`-A`) and deleting by
position (`-D chain N`) are the only mutations the code performs; both
can fail externally, so they consume success oracles. -/

/-- The rendered rule line for one set, as produced by `add_rule`
(lines 124-125) and shown by `iptables -L -n`. -/
def rule_line (action setname : String) : String :=
  action ++ " all -- 0.0.0.0/0 0.0.0.0/0 match-set " ++ setname ++
    " src /* Country blocker: " ++ setname ++ " */"

/-- `iptables -L chain -n --line-numbers` output lines for one table:
the two header lines followed by the rules, numbered from 1. -/
def numberLines (k : Nat) : List String → List String
  | [] => []
  | r :: t => (natRepr (k + 1) ++ " " ++ r) :: numberLines (k + 1) t

def listing_lines (chain : String) (rules : List String) : List String :=
  ("Chain " ++ chain ++ " (policy ACCEPT)") ::
    "num target prot opt source destination" :: numberLines 0 rules

/-- Line 154: `'Country blocker:' in line or 'ipdeny-' in line`. -/
def line_tagged (line : String) : Bool :=
  strContainsSub line "Country blocker:" || strContainsSub line "ipdeny-"

/-- Lines 156-158: the `for setname in active_ipsets: if setname in line`
probe (substring containment against each active set name). -/
def line_has_active (active : List String) (line : String) : Bool :=
  active.any (fun s => strContainsSub line s)

/-- Lines 161-163: `parts = line.split()` and
`if parts and parts[0].isdigit(): int(parts[0])`. -/
def parse_pos (line : String) : Option Nat :=
  match pySplitWsL line.data with
  | [] => none
  | p :: _ => if p.all isDigitC then some (pyToNatL p) else none

/-- Lines 153-163: collect the queued positions of orphaned rules. -/
def collect_orphans (active : List String) : List String → List Nat
  | [] => []
  | line :: t =>
    if line_tagged line && !line_has_active active line then
      (match parse_pos line with
       | some k => [k]
       | none => []) ++ collect_orphans active t
    else collect_orphans active t

/-- Python `sorted(xs, reverse=True)` on naturals. -/
def pySortDesc (l : List Nat) : List Nat :=
  List.insertionSort (fun a b => b ≤ a) l

/-- One `iptables -D chain p`: succeeds when the oracle allows it and
the 1-based position is in range. -/
def delete_at (rules : List String) (p : Nat) (ok : Bool) : List String × Bool :=
  if ok && decide (1 ≤ p) && decide (p ≤ rules.length) then
    (rules.eraseIdx (p - 1), true)
  else (rules, false)

/-- Lines 165-171: issue the deletions in the order `sorted(..., reverse=True)`
produces, counting the ones that exit 0.  Returns the rule list, the
removed count, the next delete-oracle position, and the issued positions
in order. -/
def delete_rules (delOk : Nat → Bool) : Nat → List String → List Nat →
    List String × Nat × Nat × List Nat
  | k, rules, [] => (rules, 0, k, [])
  | k, rules, p :: ps =>
    let d := delete_at rules p (delOk k)
    let rest := delete_rules delOk (k + 1) d.1 ps
    (rest.1, (if d.2 then 1 else 0) + rest.2.1, rest.2.2.1, p :: rest.2.2.2)

/-- `remove_orphaned_rules` restricted to one table (one iteration of
the `for ipv6 in [False, True]` loop, lines 139-171). -/
def remove_orphaned_table (chain : String) (active : List String) (delOk : Nat → Bool)
    (k : Nat) (rules : List String) : List String × Nat × Nat × List Nat :=
  delete_rules delOk k rules
    (pySortDesc (collect_orphans active (listing_lines chain rules)))

/-- Both tables of the firewall. -/
structure Tables where
  v4 : List String
  v6 : List String
deriving DecidableEq

/-- `remove_orphaned_rules` (lines 135-173): the v4 table, then the v6
table, with the delete oracle threaded through. -/
def remove_orphaned_rules (chain : String) (active : List String) (delOk : Nat → Bool)
    (t : Tables) : Tables × Nat :=
  let r4 := remove_orphaned_table chain active delOk 0 t.v4
  let r6 := remove_orphaned_table chain active delOk r4.2.2.1 t.v6
  (⟨r4.1, r6.1⟩, r4.2.1 + r6.2.1)

/-- `rule_exists` (lines 105-112): the `iptables -C` probe succeeds iff
an identical rule is present in the table. -/
def rule_exists (table : List String) (setname action : String) : Bool :=
  table.contains (rule_line action setname)

/-- `add_rule` for one table (lines 114-133): success without touching
the table when the rule exists, else an `-A` append that consumes the
add oracle. -/
def add_rule (addOk : Nat → Bool) (k : Nat) (table : List String)
    (setname action : String) : Bool × List String × Nat :=
  if rule_exists table setname action then (true, table, k)
  else if addOk k then (true, table ++ [rule_line action setname], k + 1)
  else (false, table, k + 1)

/-- The add loop of `update_firewall` (lines 202-206): per set, pick the
table by `'-v6' in setname` and ensure the rule, recording each result. -/
def update_firewall_adds (addOk : Nat → Bool) (action : String) :
    Nat → Tables → List String → List Bool × Tables × Nat
  | k, t, [] => ([], t, k)
  | k, t, s :: ss =>
    if strContainsSub s "-v6" then
      let r := add_rule addOk k t.v6 s action
      let rest := update_firewall_adds addOk action r.2.2 ⟨t.v4, r.2.1⟩ ss
      (r.1 :: rest.1, rest.2)
    else
      let r := add_rule addOk k t.v4 s action
      let rest := update_firewall_adds addOk action r.2.2 ⟨r.2.1, t.v6⟩ ss
      (r.1 :: rest.1, rest.2)

/-- `update_firewall` (lines 175-214) after the enabled/root checks, with
`ipsets` the result of `get_ipdeny_ipsets`: early success when no set is
present, else ensure a rule per set, remove orphaned rules, and report
success iff `success_count == len(ipsets)`.  Returns the flag, the
per-set add results, the final tables and the removed count. -/
def update_firewall (chain action : String) (addOk delOk : Nat → Bool)
    (t : Tables) (ipsets : List String) : Bool × List Bool × Tables × Nat :=
  if ipsets.isEmpty then (true, [], t, 0)
  else
    let adds := update_firewall_adds addOk action 0 t ipsets
    let orph := remove_orphaned_rules chain ipsets delOk adds.2.1
    (adds.1.countP id == ipsets.length, adds.1, orph.1, orph.2)

/-! ### Association-list lemmas -/

theorem lookup_setSet (s : IpState) (n m : String) (e : IpSetEntry) :
    lookupSet (setSet s n e) m = if n = m then some e else lookupSet s m := by
  induction s with
  | nil => simp only [setSet, lookupSet]
  | cons p t ih =>
    obtain ⟨q, e0⟩ := p
    simp only [setSet]
    by_cases hq : q = n
    · subst hq
      simp only [if_pos rfl, lookupSet]
      by_cases h : q = m <;> simp [h]
    · rw [if_neg hq]
      simp only [lookupSet, ih]
      by_cases hm : q = m
      · subst hm
        have hnm : ¬n = q := fun h => hq h.symm
        simp [hnm]
      · simp [hm]

theorem lookup_removeSet (s : IpState) (n m : String) :
    lookupSet (removeSet s n) m = if n = m then none else lookupSet s m := by
  induction s with
  | nil =>
    by_cases h : n = m <;> simp [removeSet, lookupSet, h]
  | cons p t ih =>
    obtain ⟨q, e0⟩ := p
    by_cases hq : q = n
    · subst hq
      have hr : removeSet ((q, e0) :: t) q = removeSet t q := by
        simp [removeSet, List.filter_cons]
      rw [hr, ih]
      by_cases h : q = m
      · simp [h]
      · simp [lookupSet, h]
    · have hr : removeSet ((q, e0) :: t) n = (q, e0) :: removeSet t n := by
        simp [removeSet, List.filter_cons, hq]
      rw [hr]
      simp only [lookupSet, ih]
      by_cases h : q = m
      · subst h
        have hnm : ¬n = q := fun h => hq h.symm
        simp [hnm]
      · simp [h]

/-! ### Effects of the fetcher's set helpers on individual names -/

theorem execCmd_sets (env : Env) (st : St) (c : Cmd) :
    (execCmd env st c).2.sets = (applyCmd env st.step st.sets c).2 := rfl

theorem execCmd_rc (env : Env) (st : St) (c : Cmd) :
    (execCmd env st c).1 = (applyCmd env st.step st.sets c).1 := rfl

theorem ipset_exists_sets (env : Env) (st : St) (n : String) :
    (ipset_exists env st n).2.sets = st.sets := by
  show (execCmd env st (.listName n)).2.sets = st.sets
  rw [execCmd_sets]
  simp [applyCmd]

theorem ipset_exists_val (env : Env) (st : St) (n : String) :
    (ipset_exists env st n).1 = (lookupSet st.sets n).isSome := by
  show ((execCmd env st (.listName n)).1.rc == 0) = (lookupSet st.sets n).isSome
  rw [execCmd_rc]
  by_cases h : (lookupSet st.sets n).isSome = true <;> simp [applyCmd, h]

theorem create_ipset_existing (env : Env) (st : St) (n fam : String)
    (h : (lookupSet st.sets n).isSome) :
    create_ipset env st n fam = (true, (ipset_exists env st n).2) := by
  simp only [create_ipset, ipset_exists_val, h, if_true]

theorem applyCmd_create_none (env : Env) (step : Nat) (sets : IpState)
    (n fam hs me : String) (h : lookupSet sets n = none) :
    applyCmd env step sets (.create n fam hs me) =
      if env.oracle step then (⟨0, "", ""⟩, setSet sets n ⟨fam, [], false⟩)
      else (⟨1, "", "Kernel error received: set cannot be created"⟩, sets) := by
  simp [applyCmd, h]

theorem create_ipset_fresh (env : Env) (st : St) (n fam : String)
    (h : lookupSet st.sets n = none) :
    ((create_ipset env st n fam).1 = true ∧
      (create_ipset env st n fam).2.sets = setSet st.sets n ⟨fam, [], false⟩) ∨
    ((create_ipset env st n fam).1 = false ∧
      (create_ipset env st n fam).2.sets = st.sets) := by
  have hv := ipset_exists_val env st n
  rw [h] at hv
  simp only [Option.isSome_none] at hv
  have hsets : (ipset_exists env st n).2.sets = st.sets := ipset_exists_sets env st n
  by_cases ho : env.oracle (ipset_exists env st n).2.step = true <;>
    simp [create_ipset, hv, execCmd_rc, execCmd_sets, hsets, applyCmd, h, ho]

theorem flush_ipset_sets (env : Env) (st : St) (n : String) (force : Bool) :
    (flush_ipset env st n force).2.sets =
      match lookupSet st.sets n with
      | some e => setSet st.sets n ⟨e.family, [], e.inUse⟩
      | none => st.sets := by
  have hv := ipset_exists_val env st n
  have hsets : (ipset_exists env st n).2.sets = st.sets := ipset_exists_sets env st n
  cases h : lookupSet st.sets n with
  | none =>
    rw [h] at hv; simp only [Option.isSome_none] at hv
    simp [flush_ipset, hv, hsets]
  | some e =>
    rw [h] at hv; simp only [Option.isSome_some] at hv
    simp [flush_ipset, hv, execCmd_rc, execCmd_sets, hsets, applyCmd, h]

theorem destroy_ipset_sets (env : Env) (st : St) (n : String) (ff : Bool) :
    (destroy_ipset env st n ff).2.sets =
      match lookupSet st.sets n with
      | some e => if e.inUse then (if ff then setSet st.sets n ⟨e.family, [], e.inUse⟩ else st.sets)
                  else removeSet (if ff then setSet st.sets n ⟨e.family, [], e.inUse⟩ else st.sets) n
      | none => st.sets := by
  have hv := ipset_exists_val env st n
  have hsets : (ipset_exists env st n).2.sets = st.sets := ipset_exists_sets env st n
  cases h : lookupSet st.sets n with
  | none =>
    rw [h] at hv; simp only [Option.isSome_none] at hv
    simp [destroy_ipset, hv, hsets]
  | some e =>
    rw [h] at hv; simp only [Option.isSome_some] at hv
    obtain ⟨efam, emem, euse⟩ := e
    by_cases hff : ff = true
    · subst hff
      have hs1 : (flush_ipset env (ipset_exists env st n).2 n false).2.sets
          = setSet st.sets n ⟨efam, [], euse⟩ := by
        rw [flush_ipset_sets, hsets, h]
      have hl : lookupSet (setSet st.sets n ⟨efam, [], euse⟩) n = some ⟨efam, [], euse⟩ := by
        rw [lookup_setSet]; simp
      cases euse <;>
        simp [destroy_ipset, hv, execCmd_rc, execCmd_sets, hs1, applyCmd, hl, destroy_classify, h]
    · simp only [Bool.not_eq_true] at hff
      subst hff
      cases euse <;>
        simp [destroy_ipset, hv, execCmd_rc, execCmd_sets, hsets, applyCmd, h, destroy_classify]

theorem destroy_ipset_removes (env : Env) (st : St) (n : String) (ff : Bool)
    (e : IpSetEntry) (h : lookupSet st.sets n = some e) (hu : e.inUse = false) :
    lookupSet (destroy_ipset env st n ff).2.sets n = none := by
  rw [destroy_ipset_sets, h]
  simp [hu, lookup_removeSet]

theorem destroy_ipset_other (env : Env) (st : St) (n m : String) (ff : Bool)
    (hnm : n ≠ m) :
    lookupSet (destroy_ipset env st n ff).2.sets m = lookupSet st.sets m := by
  rw [destroy_ipset_sets]
  cases h : lookupSet st.sets n with
  | none => rfl
  | some e =>
    by_cases hu : e.inUse = true <;> by_cases hff : ff = true <;>
      simp [hu, hff, lookup_removeSet, lookup_setSet, hnm]

theorem flush_ipset_other (env : Env) (st : St) (n m : String) (force : Bool)
    (hnm : n ≠ m) :
    lookupSet (flush_ipset env st n force).2.sets m = lookupSet st.sets m := by
  rw [flush_ipset_sets]
  cases h : lookupSet st.sets n with
  | none => rfl
  | some e => simp [lookup_setSet, hnm]

theorem stage_lines_sets (env : Env) (temp : String) (ls : List String) :
    ∀ st : St,
      (∀ m, m ≠ temp → lookupSet (stage_lines env st temp ls).sets m = lookupSet st.sets m) ∧
      (∀ e : IpSetEntry, lookupSet st.sets temp = some e →
        ∃ ms, lookupSet (stage_lines env st temp ls).sets temp = some ⟨e.family, ms, e.inUse⟩) := by
  induction ls with
  | nil =>
    intro st
    refine ⟨fun m _ => rfl, fun e he => ⟨e.members, ?_⟩⟩
    show lookupSet st.sets temp = some ⟨e.family, e.members, e.inUse⟩
    rw [he]
  | cons l t ih =>
    intro st
    have hstep : stage_lines env st temp (l :: t) =
        if pyTruthy (pyStrip l) && !startsHash (pyStrip l) then
          stage_lines env (execCmd env st (.add temp (pyStrip l))).2 temp t
        else stage_lines env st temp t := rfl
    by_cases hc : (pyTruthy (pyStrip l) && !startsHash (pyStrip l)) = true
    · rw [hstep, if_pos hc]
      cases h : lookupSet st.sets temp with
      | none =>
        have hsets : (execCmd env st (.add temp (pyStrip l))).2.sets = st.sets := by
          rw [execCmd_sets]; simp [applyCmd, h]
        obtain ⟨ihA, ihB⟩ := ih (execCmd env st (.add temp (pyStrip l))).2
        refine ⟨fun m hm => ?_, fun e he => ?_⟩
        · rw [ihA m hm, hsets]
        · cases he
      | some e0 =>
        obtain ⟨f0, m0, u0⟩ := e0
        by_cases hv : env.valid (pyStrip l) = true
        · have hsets : (execCmd env st (.add temp (pyStrip l))).2.sets
              = setSet st.sets temp ⟨f0, if pyStrip l ∈ m0 then m0 else m0 ++ [pyStrip l], u0⟩ := by
            rw [execCmd_sets]; simp [applyCmd, h, hv]
          obtain ⟨ihA, ihB⟩ := ih (execCmd env st (.add temp (pyStrip l))).2
          refine ⟨fun m hm => ?_, fun e he => ?_⟩
          · rw [ihA m hm, hsets, lookup_setSet, if_neg (fun h' => hm h'.symm)]
          · injection he with he'
            subst he'
            exact ihB ⟨f0, if pyStrip l ∈ m0 then m0 else m0 ++ [pyStrip l], u0⟩
              (by rw [hsets, lookup_setSet, if_pos rfl])
        · have hsets : (execCmd env st (.add temp (pyStrip l))).2.sets = st.sets := by
            rw [execCmd_sets]; simp [applyCmd, h, hv]
          obtain ⟨ihA, ihB⟩ := ih (execCmd env st (.add temp (pyStrip l))).2
          refine ⟨fun m hm => ?_, fun e he => ?_⟩
          · rw [ihA m hm, hsets]
          · exact ihB e (by rw [hsets, h]; exact he)
    · rw [hstep, if_neg hc]
      exact ih st

theorem rename_fail_sets (env : Env) (st : St) (a b : String)
    (h : (execCmd env st (.rename a b)).1.rc ≠ 0) :
    (execCmd env st (.rename a b)).2.sets = st.sets := by
  rw [execCmd_sets]
  rw [execCmd_rc] at h
  cases ha : lookupSet st.sets a with
  | none => simp [applyCmd, ha]
  | some e =>
    cases hb : lookupSet st.sets b with
    | some e' => simp [applyCmd, ha, hb]
    | none =>
      by_cases ho : env.oracle st.step = true
      · exact absurd (by simp [applyCmd, ha, hb, ho]) h
      · simp [applyCmd, ha, hb, ho]

theorem rename_ok_lookup (env : Env) (st : St) (a b : String) (hab : b ≠ a)
    (h : (execCmd env st (.rename a b)).1.rc = 0) :
    lookupSet (execCmd env st (.rename a b)).2.sets a = none := by
  rw [execCmd_sets]
  rw [execCmd_rc] at h
  cases ha : lookupSet st.sets a with
  | none =>
    rw [show applyCmd env st.step st.sets (.rename a b)
        = (⟨1, "", "The set with the given name does not exist"⟩, st.sets) by
      simp [applyCmd, ha]] at h
    exact absurd h one_ne_zero
  | some e =>
    cases hb : lookupSet st.sets b with
    | some e' =>
      rw [show applyCmd env st.step st.sets (.rename a b)
          = (⟨1, "", "Set cannot be renamed: a set with the new name already exists"⟩, st.sets) by
        simp [applyCmd, ha, hb]] at h ⊢
      exact absurd h one_ne_zero
    | none =>
      by_cases ho : env.oracle st.step = true
      · rw [show applyCmd env st.step st.sets (.rename a b)
            = (⟨0, "", ""⟩, setSet (removeSet st.sets a) b e) by simp [applyCmd, ha, hb, ho]]
        rw [lookup_setSet, if_neg hab, lookup_removeSet, if_pos rfl]
      · rw [show applyCmd env st.step st.sets (.rename a b)
            = (⟨1, "", "Kernel error received: set cannot be renamed"⟩, st.sets) by
          simp [applyCmd, ha, hb, ho]] at h
        exact absurd h one_ne_zero

theorem swap_temp_status (env : Env) (st : St) (a b : String) (hab : b ≠ a)
    (e : IpSetEntry) (ha : lookupSet st.sets a = some e) :
    ∃ e' : IpSetEntry, lookupSet (execCmd env st (.swap a b)).2.sets a = some e' ∧
      e'.inUse = e.inUse := by
  rw [execCmd_sets]
  cases hb : lookupSet st.sets b with
  | none =>
    refine ⟨e, ?_, rfl⟩
    simp [applyCmd, ha, hb]
  | some eb =>
    by_cases hc : (decide (e.family = eb.family) && env.oracle st.step) = true
    · refine ⟨⟨eb.family, eb.members, e.inUse⟩, ?_, rfl⟩
      rw [show applyCmd env st.step st.sets (.swap a b)
          = (⟨0, "", ""⟩, setSet (setSet st.sets a ⟨eb.family, eb.members, e.inUse⟩) b
              ⟨e.family, e.members, eb.inUse⟩) by simp [applyCmd, ha, hb, hc]]
      rw [lookup_setSet, if_neg hab, lookup_setSet, if_pos rfl]
    · refine ⟨e, ?_, rfl⟩
      rw [show applyCmd env st.step st.sets (.swap a b)
          = (⟨1, "", "The sets cannot be swapped: their type does not match"⟩, st.sets) by
        simp only [applyCmd, ha, hb]; rw [if_neg]; simpa using hc]
      exact ha

theorem create_ipset_sets_cases (env : Env) (st : St) (n fam : String) :
    (create_ipset env st n fam).2.sets = st.sets ∨
    (create_ipset env st n fam).2.sets = setSet st.sets n ⟨fam, [], false⟩ := by
  cases h : lookupSet st.sets n with
  | some e =>
    left
    rw [create_ipset_existing env st n fam (by rw [h]; rfl)]
    exact ipset_exists_sets env st n
  | none =>
    rcases create_ipset_fresh env st n fam h with ⟨_, hs⟩ | ⟨_, hs⟩
    · right; exact hs
    · left; exact hs

theorem name_ne_tmp (n : String) : n ≠ n ++ "-tmp" := by
  intro h
  have := congrArg String.length h
  rw [String.length_append] at this
  have h4 : ("-tmp" : String).length = 4 := rfl
  omega

theorem rename_phase_temp_clean (env : Env) (st : St) (temp name family : String)
    (hne : name ≠ temp) (fam : String) (ms : List String)
    (htmp : lookupSet st.sets temp = some ⟨fam, ms, false⟩) :
    lookupSet (populate_rename_phase env st temp name family).2.sets temp = none := by
  simp only [populate_rename_phase]
  by_cases hrc : (execCmd env st (.rename temp name)).1.rc ≠ 0
  · rw [if_pos hrc]
    have hr5 : (execCmd env st (.rename temp name)).2.sets = st.sets :=
      rename_fail_sets env st temp name hrc
    have htmp6 : lookupSet
        (ipset_exists env (execCmd env st (.rename temp name)).2 name).2.sets temp
        = some ⟨fam, ms, false⟩ := by
      rw [ipset_exists_sets, hr5]; exact htmp
    by_cases he6 : (ipset_exists env (execCmd env st (.rename temp name)).2 name).1 = true
    · rw [if_pos he6]
      obtain ⟨e', hw, hu⟩ := swap_temp_status env _ temp name hne ⟨fam, ms, false⟩ htmp6
      by_cases hw7 : (execCmd env (ipset_exists env (execCmd env st (.rename temp name)).2 name).2
          (.swap temp name)).1.rc ≠ 0
      · rw [if_pos hw7]
        exact destroy_ipset_removes env _ temp true e' hw hu
      · rw [if_neg hw7]
        exact destroy_ipset_removes env _ temp true e' hw hu
    · rw [if_neg he6]
      have htmp8 : lookupSet
          (create_ipset env (ipset_exists env (execCmd env st (.rename temp name)).2 name).2
            name family).2.sets temp = some ⟨fam, ms, false⟩ := by
        rcases create_ipset_sets_cases env
            (ipset_exists env (execCmd env st (.rename temp name)).2 name).2 name family with
          hcs | hcs
        · rw [hcs]; exact htmp6
        · rw [hcs, lookup_setSet, if_neg hne]; exact htmp6
      by_cases hc8 : (!(create_ipset env
          (ipset_exists env (execCmd env st (.rename temp name)).2 name).2 name family).1) = true
      · rw [if_pos hc8]
        exact destroy_ipset_removes env _ temp true ⟨fam, ms, false⟩ htmp8 rfl
      · rw [if_neg hc8]
        obtain ⟨e', hw, hu⟩ := swap_temp_status env _ temp name hne ⟨fam, ms, false⟩ htmp8
        exact destroy_ipset_removes env _ temp true e' hw hu
  · rw [if_neg hrc]
    exact rename_ok_lookup env st temp name hne (not_ne_iff.mp hrc)

theorem populate_replace_temp_clean (env : Env) (st : St) (temp name family : String)
    (hne : name ≠ temp) (fam : String) (ms : List String)
    (htmp : lookupSet st.sets temp = some ⟨fam, ms, false⟩) :
    lookupSet (populate_replace env st temp name family).2.sets temp = none := by
  simp only [populate_replace]
  by_cases he3 : (ipset_exists env st name).1 = true
  · rw [if_pos he3]
    refine rename_phase_temp_clean env _ temp name family hne fam ms ?_
    rw [destroy_ipset_other env _ name temp false hne,
      flush_ipset_other env _ name temp false hne, ipset_exists_sets]
    exact htmp
  · rw [if_neg he3]
    refine rename_phase_temp_clean env _ temp name family hne fam ms ?_
    rw [ipset_exists_sets]
    exact htmp

/-- C3: on every exit path of `populate_ipset_from_file` in which the
temp staging set was created by this call (it did not pre-exist), the set
named `name + "-tmp"` is gone when the function returns: it was either
renamed to the final name or explicitly destroyed — including the
read-error, swap-failure and create-final-failure paths. -/
theorem populate_removes_temp (env : Env) (st : St) (name : String) (file : ZoneFile)
    (h : lookupSet st.sets (name ++ "-tmp") = none) :
    lookupSet (populate_ipset_from_file env st name file).2.sets (name ++ "-tmp") = none := by
  have hne : name ≠ name ++ "-tmp" := name_ne_tmp name
  simp only [populate_ipset_from_file]
  rcases create_ipset_fresh env st (name ++ "-tmp") (familyOf name) h with ⟨hc1, hs1⟩ | ⟨hc1, hs1⟩
  · rw [hc1]
    simp only [Bool.not_true, Bool.false_eq_true, if_false]
    have htmp1 : lookupSet
        (create_ipset env st (name ++ "-tmp") (familyOf name)).2.sets (name ++ "-tmp")
        = some ⟨familyOf name, [], false⟩ := by
      rw [hs1, lookup_setSet, if_pos rfl]
    obtain ⟨-, ihB⟩ := stage_lines_sets env (name ++ "-tmp") file.lines
      (create_ipset env st (name ++ "-tmp") (familyOf name)).2
    obtain ⟨ms, hms⟩ := ihB ⟨familyOf name, [], false⟩ htmp1
    by_cases hre : file.readError = true
    · rw [if_pos hre]
      exact destroy_ipset_removes env _ (name ++ "-tmp") true ⟨familyOf name, ms, false⟩ hms rfl
    · rw [if_neg hre]
      exact populate_replace_temp_clean env _ (name ++ "-tmp") name (familyOf name) hne
        (familyOf name) ms hms
  · rw [hc1]
    simp only [Bool.not_false, if_true]
    rw [hs1]
    exact h

/-- Witness for `populate_removes_temp` at a concrete input. -/
theorem populate_removes_temp_witness :
    lookupSet ((⟨[], 0, [], [], []⟩ : St)).sets ("ipdeny-nl-v4" ++ "-tmp") = none ∧
    lookupSet (populate_ipset_from_file ⟨fun _ => true, fun _ => true⟩ ⟨[], 0, [], [], []⟩
      "ipdeny-nl-v4" ⟨["203.0.113.0/24"], false⟩).2.sets ("ipdeny-nl-v4" ++ "-tmp") = none :=
  ⟨rfl, populate_removes_temp ⟨fun _ => true, fun _ => true⟩ ⟨[], 0, [], [], []⟩
    "ipdeny-nl-v4" ⟨["203.0.113.0/24"], false⟩ rfl⟩

/-! ### Shared concrete inputs for the scenario theorems -/

/-- Environment in which every fallible command succeeds and every range
is syntactically valid. -/
def oracleTrue : Env := ⟨fun _ => true, fun _ => true⟩

/-- The initial interpreter state: no kernel sets, empty traces. -/
def st0 : St := ⟨[], 0, [], [], []⟩

theorem execCmd_cmds (env : Env) (st : St) (c : Cmd) :
    (execCmd env st c).2.cmds = st.cmds ++ [c] := rfl

theorem stage_lines_cmds (env : Env) (temp : String) (ls : List String) :
    ∀ st : St, (stage_lines env st temp ls).cmds =
      st.cmds ++ ((ls.map pyStrip).filter (fun s => pyTruthy s && !startsHash s)).map
        (fun ip => Cmd.add temp ip) := by
  induction ls with
  | nil => intro st; simp [stage_lines]
  | cons l t ih =>
    intro st
    have hstep : stage_lines env st temp (l :: t) =
        if pyTruthy (pyStrip l) && !startsHash (pyStrip l) then
          stage_lines env (execCmd env st (.add temp (pyStrip l))).2 temp t
        else stage_lines env st temp t := rfl
    by_cases hc : (pyTruthy (pyStrip l) && !startsHash (pyStrip l)) = true
    · rw [hstep, if_pos hc, ih, execCmd_cmds]
      simp [List.filter_cons, hc]
    · rw [hstep, if_neg hc, ih]
      simp only [Bool.not_eq_true] at hc
      simp [List.filter_cons, hc]

/-- C9: the staging loop issues an `ipset add` for exactly the artifact
lines that are nonempty after stripping surrounding whitespace and do
not start with `#`, in order; and on the spec's concrete artifact
`["203.0.113.0/24", "# comment", "", "198.51.100.0/24"]` for
`ipdeny-nl-v4`, the final set after a successful apply holds exactly the
two CIDR ranges (and no temp set is left). -/
theorem staging_filters_comments_and_blanks :
    (∀ (env : Env) (st : St) (temp : String) (lines : List String),
      (stage_lines env st temp lines).cmds =
        st.cmds ++ ((lines.map pyStrip).filter
          (fun s => pyTruthy s && !startsHash s)).map (fun ip => Cmd.add temp ip)) ∧
    (populate_ipset_from_file oracleTrue st0 "ipdeny-nl-v4"
        ⟨["203.0.113.0/24", "# comment", "", "198.51.100.0/24"], false⟩).1 = true ∧
    lookupSet (populate_ipset_from_file oracleTrue st0 "ipdeny-nl-v4"
        ⟨["203.0.113.0/24", "# comment", "", "198.51.100.0/24"], false⟩).2.sets "ipdeny-nl-v4"
      = some ⟨"inet", ["203.0.113.0/24", "198.51.100.0/24"], false⟩ ∧
    lookupSet (populate_ipset_from_file oracleTrue st0 "ipdeny-nl-v4"
        ⟨["203.0.113.0/24", "# comment", "", "198.51.100.0/24"], false⟩).2.sets
        "ipdeny-nl-v4-tmp" = none :=
  ⟨fun env st temp lines => stage_lines_cmds env temp lines st, by decide, by decide, by decide⟩

/-- C10: the address family `populate_ipset_from_file` uses is `inet6`
exactly when `-v6` occurs as a contiguous substring anywhere in the set
name (not only as a suffix), and `inet` otherwise; a name with `-v6` in
the middle (`pre-v6-x`) yields an `inet6` set even on the path where the
final set is re-created after a failed rename. -/
theorem family_derived_from_name :
    (∀ name : String,
      (familyOf name = "inet6" ↔ ∃ l r, name.data = l ++ ("-v6" : String).data ++ r) ∧
      (familyOf name = "inet6" ∨ familyOf name = "inet")) ∧
    lookupSet (populate_ipset_from_file ⟨fun n => n != 1, fun _ => true⟩ st0 "pre-v6-x"
        ⟨["198.51.100.0/24"], false⟩).2.sets "pre-v6-x"
      = some ⟨"inet6", ["198.51.100.0/24"], false⟩ := by
  refine ⟨fun name => ⟨⟨fun h => ?_, fun h => ?_⟩, ?_⟩, by decide⟩
  · by_cases hc : strContainsSub name "-v6" = true
    · exact (strContainsSub_iff name "-v6").mp hc
    · exact absurd h (by simp [familyOf, hc])
  · obtain ⟨l, r, hl⟩ := h
    have hc : strContainsSub name "-v6" = true := (strContainsSub_iff name "-v6").mpr ⟨l, r, hl⟩
    simp [familyOf, hc]
  · by_cases hc : strContainsSub name "-v6" = true <;> simp [familyOf, hc]

/-- First apply: populates `ipdeny-nl-v4` from an empty kernel state. -/
def firstApply : Bool × St :=
  populate_ipset_from_file oracleTrue st0 "ipdeny-nl-v4" ⟨["203.0.113.0/24"], false⟩

/-- The state before the second apply, with the observation trace reset
so that it records exactly the instants during the second apply. -/
def secondApplyStart : St := { firstApply.2 with trace := [] }

/-- Second apply of new data to the same, now existing, final set. -/
def secondApply : Bool × St :=
  populate_ipset_from_file oracleTrue secondApplyStart "ipdeny-nl-v4" ⟨["198.51.100.0/24"], false⟩

/-- C1 exhibit: both applies succeed, yet between two of the second
apply's primitive commands an observer sees `ipdeny-nl-v4` **absent**
(after the successful destroy at line 218 of ipdeny-fetcher.py), and
between two others sees it **empty** (after the flush at line 216) —
contradicting the claim that after the first successful apply the final
set is never absent and never has an empty or mixed membership. -/
theorem apply_exposes_empty_and_absent_final :
    firstApply.1 = true ∧ secondApply.1 = true ∧
    secondApply.2.trace.any (fun s => (lookupSet s "ipdeny-nl-v4").isNone) = true ∧
    secondApply.2.trace.any (fun s =>
      match lookupSet s "ipdeny-nl-v4" with
      | some e => e.members.isEmpty
      | none => false) = true := by
  refine ⟨by decide, by decide, by decide, by decide⟩

/-- C7 counterexample: a busy destroy and a genuine destroy error return
the **same** Boolean result (`False`) to the caller — the outcomes are
not distinguishable at the operation's result, only in the log level. -/
theorem destroy_busy_not_distinguishable_in_result :
    (destroy_classify 1 busyErr).1
      = (destroy_classify 1 "ipset v7.15: Kernel error received: Operation not permitted").1 ∧
    strContainsSub busyErr busyKey = true ∧
    strContainsSub "ipset v7.15: Kernel error received: Operation not permitted" busyKey
      = false := by
  refine ⟨by decide, by decide, by decide⟩

/-- The busy-final scenario: the final set exists and is referenced by a
kernel object (an active iptables rule), so `destroy` fails busy. -/
def busySt : St := ⟨[("ipdeny-nl-v4", ⟨"inet", ["203.0.113.0/24"], true⟩)], 0, [], [], []⟩

/-- C7 amended: a failed destroy always returns `False` to the caller;
the "in use by a kernel component" stderr is recognised by substring
match and downgraded to a `debug` log entry, while every other failure
is logged as a `warning` — the distinction exists only in the log.  The
outcome is non-fatal: applying to a busy final set still succeeds via
the swap fallback, the final set ends with exactly the staged
membership (still referenced), no temp set is left, and the run logged
the busy destroy as `debug`. -/
theorem destroy_busy_downgraded_nonfatal :
    (∀ (rc : Nat) (stderr : String),
      destroy_classify (rc + 1) stderr
        = (false, some (if strContainsSub stderr busyKey then LogLevel.debug
            else LogLevel.warning))) ∧
    (∀ stderr : String,
      (destroy_classify 1 stderr).2 = some LogLevel.debug ↔
        ∃ l r, stderr.data = l ++ busyKey.data ++ r) ∧
    (populate_ipset_from_file oracleTrue busySt "ipdeny-nl-v4"
        ⟨["198.51.100.0/24"], false⟩).1 = true ∧
    lookupSet (populate_ipset_from_file oracleTrue busySt "ipdeny-nl-v4"
        ⟨["198.51.100.0/24"], false⟩).2.sets "ipdeny-nl-v4"
      = some ⟨"inet", ["198.51.100.0/24"], true⟩ ∧
    lookupSet (populate_ipset_from_file oracleTrue busySt "ipdeny-nl-v4"
        ⟨["198.51.100.0/24"], false⟩).2.sets "ipdeny-nl-v4-tmp" = none ∧
    LogLevel.debug ∈ (populate_ipset_from_file oracleTrue busySt "ipdeny-nl-v4"
        ⟨["198.51.100.0/24"], false⟩).2.logs := by
  refine ⟨fun rc stderr => ?_, fun stderr => ?_, by decide, by decide, by decide, by decide⟩
  · simp [destroy_classify]
  · constructor
    · intro h
      by_cases hc : strContainsSub stderr busyKey = true
      · exact (strContainsSub_iff stderr busyKey).mp hc
      · simp [destroy_classify, hc] at h
    · intro ⟨l, r, hl⟩
      have hc : strContainsSub stderr busyKey = true :=
        (strContainsSub_iff stderr busyKey).mpr ⟨l, r, hl⟩
      simp [destroy_classify, hc]

/-! ### Characterisation of the `download_zone` retry loop -/

def isSucc : FetchOutcome → Bool
  | .success _ => true
  | _ => false

/-- First attempt index in `[a, a + fuel)` whose outcome is a success. -/
def firstSuccFrom (out : Nat → FetchOutcome) : Nat → Nat → Option Nat
  | 0, _ => none
  | fuel + 1, a => if isSucc (out a) then some a else firstSuccFrom out fuel (a + 1)

/-- The sleeps the loop performs for the failed attempts `a, …, a+n-1`:
one sleep of `delay * j` after attempt `j` exactly when the outcome was
retryable and `j < maxR`. -/
def sleepSeg (delay maxR : Nat) (out : Nat → FetchOutcome) (a n : Nat) : List (Nat × Nat) :=
  (List.range' a n).filterMap
    (fun j => if retryFail (out j) && decide (j < maxR) then some (j, delay * j) else none)

theorem sleepSeg_zero (delay maxR : Nat) (out : Nat → FetchOutcome) (a : Nat) :
    sleepSeg delay maxR out a 0 = [] := rfl

theorem sleepSeg_succ (delay maxR : Nat) (out : Nat → FetchOutcome) (a n : Nat) :
    sleepSeg delay maxR out a (n + 1) =
      (if retryFail (out a) && decide (a < maxR) then [(a, delay * a)] else []) ++
        sleepSeg delay maxR out (a + 1) n := by
  simp only [sleepSeg, List.range'_succ, List.filterMap_cons]
  by_cases hc : (retryFail (out a) && decide (a < maxR)) = true <;> simp [hc]

theorem firstSuccFrom_bounds (out : Nat → FetchOutcome) :
    ∀ fuel a b, firstSuccFrom out fuel a = some b → a ≤ b ∧ b < a + fuel := by
  intro fuel
  induction fuel with
  | zero => intro a b h; exact absurd h (by simp [firstSuccFrom])
  | succ fuel ih =>
    intro a b h
    by_cases hs : isSucc (out a) = true
    · simp only [firstSuccFrom, hs, if_true, Option.some.injEq] at h
      omega
    · simp only [firstSuccFrom, hs, Bool.false_eq_true, if_false] at h
      obtain ⟨h1, h2⟩ := ih (a + 1) b h
      omega

/-- Full unfolding of the retry loop. -/
theorem dlGo_eq (delay maxR : Nat) (out : Nat → FetchOutcome) (zfile : String) :
    ∀ (fuel a : Nat) (sl : List (Nat × Nat)),
      dlGo delay maxR out zfile fuel a sl =
        match firstSuccFrom out fuel a with
        | some b => ⟨some zfile, sl.reverse ++ sleepSeg delay maxR out a (b - a), b⟩
        | none => ⟨none, sl.reverse ++ sleepSeg delay maxR out a fuel, maxR⟩ := by
  intro fuel
  induction fuel with
  | zero => intro a sl; simp [dlGo, firstSuccFrom, sleepSeg]
  | succ fuel ih =>
    intro a sl
    cases ho : out a with
    | success d =>
      simp [dlGo, firstSuccFrom, ho, isSucc, sleepSeg_zero]
    | httpError c =>
      have hR : firstSuccFrom out (fuel + 1) a = firstSuccFrom out fuel (a + 1) := by
        simp [firstSuccFrom, ho, isSucc]
      have hgo : dlGo delay maxR out zfile (fuel + 1) a sl =
          dlGo delay maxR out zfile fuel (a + 1)
            (if retryFail (.httpError c) && decide (a < maxR) then (a, delay * a) :: sl
             else sl) := by
        simp [dlGo, ho]
      rw [hgo, ih, hR]
      cases hf : firstSuccFrom out fuel (a + 1) with
      | some b =>
        obtain ⟨hab, -⟩ := firstSuccFrom_bounds out fuel (a + 1) b hf
        have hba : b - a = (b - (a + 1)) + 1 := by omega
        by_cases hc : (retryFail (FetchOutcome.httpError c) && decide (a < maxR)) = true <;>
          simp [hba, sleepSeg_succ, ho, hc, List.append_assoc]
      | none =>
        by_cases hc : (retryFail (FetchOutcome.httpError c) && decide (a < maxR)) = true <;>
          simp [sleepSeg_succ, ho, hc, List.append_assoc]
    | urlError =>
      have hR : firstSuccFrom out (fuel + 1) a = firstSuccFrom out fuel (a + 1) := by
        simp [firstSuccFrom, ho, isSucc]
      have hgo : dlGo delay maxR out zfile (fuel + 1) a sl =
          dlGo delay maxR out zfile fuel (a + 1)
            (if retryFail .urlError && decide (a < maxR) then (a, delay * a) :: sl
             else sl) := by
        simp [dlGo, ho]
      rw [hgo, ih, hR]
      cases hf : firstSuccFrom out fuel (a + 1) with
      | some b =>
        obtain ⟨hab, -⟩ := firstSuccFrom_bounds out fuel (a + 1) b hf
        have hba : b - a = (b - (a + 1)) + 1 := by omega
        by_cases hc : (retryFail FetchOutcome.urlError && decide (a < maxR)) = true <;>
          simp [hba, sleepSeg_succ, ho, hc, List.append_assoc]
      | none =>
        by_cases hc : (retryFail FetchOutcome.urlError && decide (a < maxR)) = true <;>
          simp [sleepSeg_succ, ho, hc, List.append_assoc]
    | otherError =>
      have hR : firstSuccFrom out (fuel + 1) a = firstSuccFrom out fuel (a + 1) := by
        simp [firstSuccFrom, ho, isSucc]
      have hgo : dlGo delay maxR out zfile (fuel + 1) a sl =
          dlGo delay maxR out zfile fuel (a + 1)
            (if retryFail .otherError && decide (a < maxR) then (a, delay * a) :: sl
             else sl) := by
        simp [dlGo, ho]
      rw [hgo, ih, hR]
      cases hf : firstSuccFrom out fuel (a + 1) with
      | some b =>
        obtain ⟨hab, -⟩ := firstSuccFrom_bounds out fuel (a + 1) b hf
        have hba : b - a = (b - (a + 1)) + 1 := by omega
        by_cases hc : (retryFail FetchOutcome.otherError && decide (a < maxR)) = true <;>
          simp [hba, sleepSeg_succ, ho, hc, List.append_assoc]
      | none =>
        by_cases hc : (retryFail FetchOutcome.otherError && decide (a < maxR)) = true <;>
          simp [sleepSeg_succ, ho, hc, List.append_assoc]

theorem sleepSeg_all_lt (delay maxR : Nat) (out : Nat → FetchOutcome) :
    ∀ (n a : Nat), a + n ≤ maxR →
      sleepSeg delay maxR out a n = (List.range' a n).filterMap
        (fun j => if retryFail (out j) then some (j, delay * j) else none) := by
  intro n
  induction n with
  | zero => intro a _; rfl
  | succ n ih =>
    intro a h
    have ha : a < maxR := by omega
    rw [sleepSeg_succ]
    simp only [List.range'_succ, List.filterMap_cons]
    rw [ih (a + 1) (by omega)]
    by_cases hc : retryFail (out a) = true <;> simp [hc, ha]

theorem sleepSeg_full (delay maxR : Nat) (out : Nat → FetchOutcome) :
    sleepSeg delay maxR out 1 maxR = (List.range' 1 (maxR - 1)).filterMap
      (fun j => if retryFail (out j) then some (j, delay * j) else none) := by
  cases maxR with
  | zero => rfl
  | succ m =>
    have hsplit : List.range' 1 (m + 1) = List.range' 1 m ++ [m + 1] := by
      have h := List.range'_append 1 m 1 1
      simp only [Nat.one_mul, Nat.mul_one, List.range'] at h
      rw [Nat.add_comm 1 m] at h
      exact h.symm
    simp only [sleepSeg, hsplit, List.filterMap_append]
    have hlast : List.filterMap
        (fun j => if (retryFail (out j) && decide (j < m + 1)) = true
          then some (j, delay * j) else none) [m + 1] = [] := by
      simp [show ¬(m + 1 < m + 1) by omega]
    rw [hlast, List.append_nil]
    have := sleepSeg_all_lt delay (m + 1) out m 1 (by omega)
    simp only [sleepSeg] at this
    rw [this]
    simp

theorem firstSuccFrom_none (out : Nat → FetchOutcome) (hout : ∀ n, isSucc (out n) = false) :
    ∀ fuel a, firstSuccFrom out fuel a = none := by
  intro fuel
  induction fuel with
  | zero => intro a; rfl
  | succ fuel ih => intro a; simp [firstSuccFrom, hout a, ih]

theorem sleepSeg_none (delay maxR : Nat) (out : Nat → FetchOutcome)
    (hout : ∀ n, retryFail (out n) = false) :
    ∀ n a, sleepSeg delay maxR out a n = [] := by
  intro n
  induction n with
  | zero => intro a; rfl
  | succ n ih => intro a; rw [sleepSeg_succ, hout a, ih]; simp

/-- C2: a non-retryable HTTP error status (one outside {502, 503, 504})
does **not** stop the loop: when every attempt yields such a status, all
`max_retries` attempts are performed — without any backoff sleep — and
only then does `download_zone` return `None`.  (The claim that the fetch
fails immediately without consuming the remaining attempts is false: the
`except` handler at lines 277-284 only logs and falls through to the
next loop iteration.) -/
theorem download_zone_nonretryable_keeps_trying (delay maxR c : Nat) (zfile : String)
    (hc : retryFail (.httpError c) = false) :
    download_zone delay maxR (fun _ => .httpError c) zfile = ⟨none, [], maxR⟩ := by
  simp [download_zone, dlGo_eq,
    firstSuccFrom_none (fun _ => FetchOutcome.httpError c) (fun _ => rfl),
    sleepSeg_none delay maxR (fun _ => FetchOutcome.httpError c) (fun _ => hc)]

/-- Witness for `download_zone_nonretryable_keeps_trying`: HTTP 404 with
the default retry configuration performs all 3 attempts and sleeps 0
times. -/
theorem download_zone_nonretryable_keeps_trying_witness :
    retryFail (.httpError 404) = false ∧
    download_zone 5 3 (fun _ => .httpError 404) "/var/lib/ipdeny/nl-v4.zone"
      = ⟨none, [], 3⟩ :=
  ⟨by decide, download_zone_nonretryable_keeps_trying 5 3 404 "/var/lib/ipdeny/nl-v4.zone"
    (by decide)⟩

/-- C5 counterexample: with HTTP 404 on both attempts and
`max_retries = 2`, a retry occurs (2 attempts are performed) but the
loop sleeps nothing, while the claim requires a sleep of
`retry_delay_base * 1` before the first retry — the sleep list differs
from the `[(1, 5)]` the claim predicts. -/
theorem download_zone_retry_without_sleep :
    (download_zone 5 2 (fun _ => .httpError 404) "f").attempts = 2 ∧
    (download_zone 5 2 (fun _ => .httpError 404) "f").sleeps = [] ∧
    (download_zone 5 2 (fun _ => .httpError 404) "f").sleeps ≠ [(1, 5 * 1)] :=
  ⟨by decide, by decide, by decide⟩

/-- C5 amended: `download_zone` performs at most `max_retries` attempts;
its sleep trace contains exactly one entry `(j, delay * j)` for every
**retryable** failed attempt `j` that precedes a further attempt
(linear backoff), and nothing for non-retryable HTTP failures; it never
sleeps at or after the attempt it stops at; it stops at the first
successful attempt, and on exhaustion (no success within `max_retries`)
its result is `None` after exactly `max_retries` attempts — returned,
not raised. -/
theorem download_zone_retry_bound_and_backoff (delay maxR : Nat)
    (out : Nat → FetchOutcome) (zfile : String) :
    (download_zone delay maxR out zfile).attempts ≤ maxR ∧
    (download_zone delay maxR out zfile).sleeps
      = (List.range' 1 ((download_zone delay maxR out zfile).attempts - 1)).filterMap
          (fun j => if retryFail (out j) then some (j, delay * j) else none) ∧
    (download_zone delay maxR out zfile).result
      = (match firstSuccFrom out maxR 1 with
         | some _ => some zfile
         | none => none) ∧
    (download_zone delay maxR out zfile).attempts
      = (match firstSuccFrom out maxR 1 with
         | some b => b
         | none => maxR) ∧
    (download_zone delay maxR out zfile).sleeps.all
      (fun p => decide (p.1 < (download_zone delay maxR out zfile).attempts)
        && (p.2 == delay * p.1)) = true := by
  have hdl := dlGo_eq delay maxR out zfile maxR 1 []
  rw [download_zone]
  cases hf : firstSuccFrom out maxR 1 with
  | some b =>
    rw [hf] at hdl
    obtain ⟨hb1, hb2⟩ := firstSuccFrom_bounds out maxR 1 b hf
    simp only [List.reverse_nil, List.nil_append] at hdl
    rw [hdl]
    have hseg : sleepSeg delay maxR out 1 (b - 1) = (List.range' 1 (b - 1)).filterMap
        (fun j => if retryFail (out j) then some (j, delay * j) else none) := by
      rw [sleepSeg_all_lt delay maxR out (b - 1) 1 (by omega)]
    refine ⟨?_, ?_, rfl, rfl, ?_⟩
    · show b ≤ maxR
      omega
    · show sleepSeg delay maxR out 1 (b - 1) = (List.range' 1 (b - 1)).filterMap
        (fun j => if retryFail (out j) then some (j, delay * j) else none)
      exact hseg
    · show (sleepSeg delay maxR out 1 (b - 1)).all
        (fun p => decide (p.1 < b) && (p.2 == delay * p.1)) = true
      rw [List.all_eq_true]
      intro p hp
      rw [hseg] at hp
      rcases List.mem_filterMap.mp hp with ⟨j, hj, hval⟩
      have hjr := List.mem_range'_1.mp hj
      by_cases hr : retryFail (out j) = true
      · rw [if_pos hr] at hval
        cases hval
        simp only [Bool.and_eq_true, decide_eq_true_eq, beq_iff_eq]
        exact ⟨by omega, by simp⟩
      · rw [if_neg hr] at hval; cases hval
  | none =>
    rw [hf] at hdl
    simp only [List.reverse_nil, List.nil_append] at hdl
    rw [hdl]
    refine ⟨?_, ?_, rfl, rfl, ?_⟩
    · show maxR ≤ maxR
      exact Nat.le_refl _
    · show sleepSeg delay maxR out 1 maxR = (List.range' 1 (maxR - 1)).filterMap
        (fun j => if retryFail (out j) then some (j, delay * j) else none)
      exact sleepSeg_full delay maxR out
    · show (sleepSeg delay maxR out 1 maxR).all
        (fun p => decide (p.1 < maxR) && (p.2 == delay * p.1)) = true
      rw [List.all_eq_true]
      intro p hp
      rw [sleepSeg_full] at hp
      rcases List.mem_filterMap.mp hp with ⟨j, hj, hval⟩
      have hjr := List.mem_range'_1.mp hj
      by_cases hr : retryFail (out j) = true
      · rw [if_pos hr] at hval
        cases hval
        simp only [Bool.and_eq_true, decide_eq_true_eq, beq_iff_eq]
        exact ⟨by omega, by simp⟩
      · rw [if_neg hr] at hval; cases hval

/-! ### Orphan-rule collection and descending deletion -/

theorem parse_pos_numbered (k : Nat) (r : String) :
    parse_pos (natRepr (k + 1) ++ " " ++ r) = some (k + 1) := by
  have hdata : (natRepr (k + 1) ++ " " ++ r).data
      = (natRepr (k + 1)).data ++ ' ' :: r.data := by
    simp [String.data_append]
  have hsplit : pySplitWsL (natRepr (k + 1) ++ " " ++ r).data
      = (natRepr (k + 1)).data :: splitAux r.data [] := by
    rw [hdata]
    exact splitAux_token (natRepr (k + 1)).data
      (fun c hc => natRepr_no_ws (k + 1) c hc) [] r.data
      (Or.inr (natRepr_pos_ne_nil (Nat.succ_pos k)))
  simp only [parse_pos, hsplit]
  rw [if_pos (List.all_eq_true.mpr (fun c hc => natRepr_all_digit (k + 1) c hc))]
  rw [pyToNatL_natRepr]

theorem parse_pos_chain_header (chain : String) :
    parse_pos ("Chain " ++ chain ++ " (policy ACCEPT)") = none := by
  have hdata : ("Chain " ++ chain ++ " (policy ACCEPT)").data
      = ("Chain" : String).data ++ ' ' :: (chain.data ++ (" (policy ACCEPT)" : String).data) := by
    simp [String.data_append]
  have hsplit : pySplitWsL ("Chain " ++ chain ++ " (policy ACCEPT)").data
      = ("Chain" : String).data
          :: splitAux (chain.data ++ (" (policy ACCEPT)" : String).data) [] := by
    rw [hdata]
    exact splitAux_token ("Chain" : String).data (by decide) [] _ (Or.inr (by decide))
  simp only [parse_pos, hsplit]
  rw [if_neg (by decide)]

theorem collect_orphans_header (active : List String) (line : String)
    (hline : parse_pos line = none) (rest : List String) :
    collect_orphans active (line :: rest) = collect_orphans active rest := by
  by_cases hc : (line_tagged line && !line_has_active active line) = true
  · simp [collect_orphans, hc, hline]
  · simp only [Bool.not_eq_true] at hc
    simp [collect_orphans, hc]

theorem collect_numbered_incr (active : List String) :
    ∀ (rs : List String) (k : Nat),
      (∀ x ∈ collect_orphans active (numberLines k rs), k < x) ∧
      List.Pairwise (· < ·) (collect_orphans active (numberLines k rs)) := by
  intro rs
  induction rs with
  | nil => intro k; simp [numberLines, collect_orphans]
  | cons r t ih =>
    intro k
    obtain ⟨ihB, ihP⟩ := ih (k + 1)
    have hstep : collect_orphans active (numberLines k (r :: t)) =
        if line_tagged (natRepr (k + 1) ++ " " ++ r)
            && !line_has_active active (natRepr (k + 1) ++ " " ++ r) then
          (k + 1) :: collect_orphans active (numberLines (k + 1) t)
        else collect_orphans active (numberLines (k + 1) t) := by
      simp only [numberLines, collect_orphans, parse_pos_numbered k r]
      by_cases hc : (line_tagged (natRepr (k + 1) ++ " " ++ r)
          && !line_has_active active (natRepr (k + 1) ++ " " ++ r)) = true
      · simp [hc]
      · simp only [Bool.not_eq_true] at hc
        simp [hc]
    rw [hstep]
    by_cases hc : (line_tagged (natRepr (k + 1) ++ " " ++ r)
        && !line_has_active active (natRepr (k + 1) ++ " " ++ r)) = true
    · rw [if_pos hc]
      constructor
      · intro x hx
        rcases List.mem_cons.mp hx with rfl | hx
        · omega
        · have := ihB x hx; omega
      · rw [List.pairwise_cons]
        exact ⟨fun x hx => ihB x hx, ihP⟩
    · rw [if_neg hc]
      exact ⟨fun x hx => by have := ihB x hx; omega, ihP⟩

theorem collect_listing_eq (chain : String) (active : List String) (rs : List String) :
    collect_orphans active (listing_lines chain rs) = collect_orphans active (numberLines 0 rs) := by
  rw [listing_lines, collect_orphans_header active _ (parse_pos_chain_header chain),
    collect_orphans_header active _ (by decide)]

instance : IsTotal Nat (fun a b => b ≤ a) := ⟨fun a b => (Nat.le_total b a).imp id id⟩

instance : IsTrans Nat (fun a b => b ≤ a) := ⟨fun _ _ _ h1 h2 => Nat.le_trans h2 h1⟩

theorem pySortDesc_pairwise_gt {l : List Nat} (h : List.Pairwise (· < ·) l) :
    List.Pairwise (· > ·) (pySortDesc l) := by
  have hnd : l.Nodup := h.imp Nat.ne_of_lt
  have hperm := List.perm_insertionSort (fun a b => b ≤ a) l
  have hnd' : (pySortDesc l).Nodup := (hperm.nodup_iff).mpr hnd
  have hsorted : List.Sorted (fun a b => b ≤ a) (pySortDesc l) :=
    List.sorted_insertionSort (fun a b => b ≤ a) l
  have := List.Pairwise.and hsorted hnd'
  exact this.imp (fun hab => Nat.lt_of_le_of_ne hab.1 (Ne.symm hab.2))

theorem delete_rules_trace (delOk : Nat → Bool) :
    ∀ (ps : List Nat) (k : Nat) (rules : List String),
      (delete_rules delOk k rules ps).2.2.2 = ps := by
  intro ps
  induction ps with
  | nil => intro k rules; rfl
  | cons p t ih => intro k rules; simp [delete_rules, ih]

/-- The five-rule table of the order-safety scenario: positions 3 and 5
reference sets that no longer exist. -/
def rules5 : List String :=
  [rule_line "DROP" "ipdeny-aa-v4", "ACCEPT all -- 0.0.0.0/0 0.0.0.0/0",
   rule_line "DROP" "ipdeny-cc-v4", rule_line "DROP" "ipdeny-bb-v4",
   rule_line "DROP" "ipdeny-dd-v4"]

/-- C6: within one table, `remove_orphaned_rules` issues its deletions
in strictly descending position order, for every rule list and every set
of active names; in the `[3, 5]` scenario it issues position 5 before
position 3 and the surviving rule list is the original one with exactly
the two targeted entries removed. -/
theorem orphan_deletions_descending :
    (∀ (chain : String) (active : List String) (delOk : Nat → Bool) (k : Nat)
        (rules : List String),
      List.Pairwise (· > ·) (remove_orphaned_table chain active delOk k rules).2.2.2) ∧
    collect_orphans ["ipdeny-aa-v4", "ipdeny-bb-v4"] (listing_lines "INPUT" rules5) = [3, 5] ∧
    remove_orphaned_table "INPUT" ["ipdeny-aa-v4", "ipdeny-bb-v4"] (fun _ => true) 0 rules5
      = ([rule_line "DROP" "ipdeny-aa-v4", "ACCEPT all -- 0.0.0.0/0 0.0.0.0/0",
          rule_line "DROP" "ipdeny-bb-v4"], 2, 2, [5, 3]) := by
  refine ⟨fun chain active delOk k rules => ?_, by decide, by decide⟩
  rw [remove_orphaned_table, delete_rules_trace, collect_listing_eq]
  exact pySortDesc_pairwise_gt (collect_numbered_incr active rules 0).2

/-- The rule whose referenced set `ipdeny-nl-v41` does not exist, while
the similarly named set `ipdeny-nl-v4` does. -/
def orphanRule : String := rule_line "DROP" "ipdeny-nl-v41"

/-- C4 exhibit: a tool-tagged rule referencing the non-existent set
`ipdeny-nl-v41` is **kept** by `remove_orphaned_rules` when the existing
set `ipdeny-nl-v4` happens to be a substring of the rule line (lines
156-158 test `setname in line`), so the reconcile pass removes nothing —
contradicting the claim that exactly the rules referencing non-existent
sets are deleted. -/
theorem orphaned_rule_survives_substring_match :
    line_tagged (natRepr 1 ++ " " ++ orphanRule) = true ∧
    "ipdeny-nl-v41" ∉ (["ipdeny-nl-v4"] : List String) ∧
    remove_orphaned_table "INPUT" ["ipdeny-nl-v4"] (fun _ => true) 0 [orphanRule]
      = ([orphanRule], 0, 0, []) := by
  refine ⟨by decide, by decide, by decide⟩

/-! ### `update_firewall` success accounting -/

theorem update_firewall_adds_length (addOk : Nat → Bool) (action : String) :
    ∀ (ipsets : List String) (k : Nat) (t : Tables),
      (update_firewall_adds addOk action k t ipsets).1.length = ipsets.length := by
  intro ipsets
  induction ipsets with
  | nil => intro k t; rfl
  | cons s ss ih =>
    intro k t
    by_cases hc : strContainsSub s "-v6" = true <;>
      simp [update_firewall_adds, hc, ih]

theorem count_eq_all (res : List Bool) (n : Nat) (hlen : res.length = n) :
    (res.countP id == n) = res.all id := by
  by_cases h : res.all id = true
  · rw [h]
    have hall : ∀ a ∈ res, id a = true := fun a ha => List.all_eq_true.mp h a ha
    have : res.countP id = res.length := List.countP_eq_length.mpr hall
    rw [this, hlen]
    simp
  · simp only [Bool.not_eq_true] at h
    rw [h, beq_eq_false_iff_ne]
    intro hc
    rw [← hlen] at hc
    have hall : ∀ a ∈ res, id a = true := List.countP_eq_length.mp hc
    have : res.all id = true := List.all_eq_true.mpr hall
    rw [this] at h
    cases h

/-- C8: with at least one prefix-named set present, `update_firewall`
reports success exactly when every per-set rule add succeeded; every set
is processed (one recorded result per set — a failed add does not abort
the loop); the reported flag does not depend on the outcomes of the
orphan-rule deletions; and a failed deletion does not abort the delete
loop either — the issued deletion sequence is the same for every
delete-outcome oracle. -/
theorem update_firewall_success_iff_all_adds (chain action : String)
    (addOk delOk delOk' : Nat → Bool) (t : Tables) (s : String) (ss : List String) :
    (update_firewall chain action addOk delOk t (s :: ss)).1
      = (update_firewall chain action addOk delOk t (s :: ss)).2.1.all id ∧
    (update_firewall chain action addOk delOk t (s :: ss)).2.1.length = (s :: ss).length ∧
    (update_firewall chain action addOk delOk t (s :: ss)).1
      = (update_firewall chain action addOk delOk' t (s :: ss)).1 ∧
    (∀ (active : List String) (k : Nat) (rules : List String),
      (remove_orphaned_table chain active delOk k rules).2.2.2
        = (remove_orphaned_table chain active delOk' k rules).2.2.2) := by
  have hne : ((s :: ss : List String)).isEmpty = false := rfl
  simp only [update_firewall, hne, Bool.false_eq_true, if_false]
  refine ⟨count_eq_all _ _ (update_firewall_adds_length addOk action (s :: ss) 0 t),
    update_firewall_adds_length addOk action (s :: ss) 0 t, trivial,
    fun active k rules => ?_⟩
  rw [remove_orphaned_table, delete_rules_trace, remove_orphaned_table, delete_rules_trace]

end CountryBlocker
